import Mathlib

/-!
# Verification of the wasm-fast-compress session/protocol layer

A shallow embedding of the repository's streaming-compression layer:

* `src/crates/core-api/src/lib.rs` — `Flush`, `CompressionOptions`, the
  `Compressor` trait;
* `src/crates/codec-brotli`, `codec-gzip`, `codec-lz4` — the three codec
  wrappers (`new`, `compress_chunk`, `compress_all`);
* `src/bindings/brotli-wasm`, `gzip-wasm`, `lz4-wasm` — the handle
  registries, the chunk-feed entry points and the one-shot entry points.

Bytes are modelled as `List Nat`.  The external compression engines
(the `brotli`, `flate2` and `lz4_flex` crates) are out of scope of the
repository and are treated as opaque deterministic functions: each model
takes an *engine* record whose fields describe exactly the observable
behaviour the wrapper code consumes (the sink contents after a
`write_all`/`flush`, the result of `finish`, the decoded bytes available
from a compressed byte string, ...).  Every definition below is a direct
transcription of the corresponding Rust function's control flow; writes
into a `Vec<u8>` sink are infallible in Rust, so the corresponding model
operations are total.

The caller-owned output buffer of the pointer-and-length ABI is modelled
by returning, next to the `isize` result, the list of bytes the call
copied into the buffer (`[]` when nothing was written).
-/

set_option linter.unusedVariables false

namespace WasmFastCompress

/-! ## Handle registries (`HashMap<u32, _>` in the bindings)

The bindings keep sessions in a `HashMap<u32, Session>` behind a mutex.
The claims only use `get_mut`, `insert` and `remove`, so the table is
modelled as an association list with `HashMap` semantics: `insertH`
replaces an existing binding, `removeH` deletes the binding, `lookupH`
finds it. -/

def lookupH {α : Type} : List (Nat × α) → Nat → Option α
  | [], _ => none
  | (k, v) :: rest, h => if k = h then some v else lookupH rest h

def insertH {α : Type} : List (Nat × α) → Nat → α → List (Nat × α)
  | [], h, v => [(h, v)]
  | (k, w) :: rest, h, v =>
      if k = h then (h, v) :: rest else (k, w) :: insertH rest h v

def removeH {α : Type} : List (Nat × α) → Nat → List (Nat × α)
  | [], _ => []
  | (k, v) :: rest, h => if k = h then rest else (k, v) :: removeH rest h

/-- Keys of the table are pairwise distinct (true of every `HashMap`). -/
abbrev KeysNodup {α : Type} (r : List (Nat × α)) : Prop :=
  (r.map Prod.fst).Nodup

theorem lookupH_insertH {α : Type} (r : List (Nat × α)) (h k : Nat) (v : α) :
    lookupH (insertH r h v) k = if k = h then some v else lookupH r k := by
  induction r with
  | nil =>
      simp only [insertH, lookupH]
      by_cases hk : h = k
      · simp [hk]
      · rw [if_neg hk, if_neg (Ne.symm hk)]
  | cons p rest ih =>
      obtain ⟨k0, w⟩ := p
      by_cases h0 : k0 = h
      · subst h0
        by_cases hk : k0 = k
        · subst hk
          simp [insertH, lookupH]
        · simp [insertH, lookupH, hk, Ne.symm hk]
      · by_cases hk0 : k0 = k
        · subst hk0
          simp [insertH, lookupH, h0]
        · simp [insertH, lookupH, h0, hk0, ih]

theorem lookupH_removeH_ne {α : Type} (r : List (Nat × α)) (h k : Nat)
    (hne : k ≠ h) : lookupH (removeH r h) k = lookupH r k := by
  induction r with
  | nil => rfl
  | cons p rest ih =>
      obtain ⟨k0, w⟩ := p
      by_cases h0 : k0 = h
      · subst h0
        have hk : ¬ k0 = k := fun hh => hne hh.symm
        simp [removeH, lookupH, hk]
      · simp [removeH, lookupH, h0, ih]

theorem lookupH_eq_none {α : Type} (r : List (Nat × α)) (h : Nat)
    (hm : h ∉ r.map Prod.fst) : lookupH r h = none := by
  induction r with
  | nil => rfl
  | cons p rest ih =>
      obtain ⟨k0, w⟩ := p
      simp only [List.map_cons, List.mem_cons, not_or] at hm
      have hne : ¬ k0 = h := fun hh => hm.1 hh.symm
      simp [lookupH, hne, ih hm.2]

theorem keys_removeH_not_mem {α : Type} (r : List (Nat × α)) (h : Nat)
    (hnd : KeysNodup r) : h ∉ (removeH r h).map Prod.fst := by
  induction r with
  | nil => simp [removeH]
  | cons p rest ih =>
      obtain ⟨k0, w⟩ := p
      simp only [KeysNodup, List.map_cons, List.nodup_cons] at hnd
      by_cases h0 : k0 = h
      · subst h0
        simp only [removeH, if_pos rfl]
        exact hnd.1
      · simp only [removeH, if_neg h0, List.map_cons, List.mem_cons, not_or]
        exact ⟨fun hh => h0 hh.symm, ih hnd.2⟩

theorem lookupH_removeH_self {α : Type} (r : List (Nat × α)) (h : Nat)
    (hnd : KeysNodup r) : lookupH (removeH r h) h = none :=
  lookupH_eq_none _ _ (keys_removeH_not_mem r h hnd)

theorem removeH_insertH {α : Type} (r : List (Nat × α)) (h : Nat) (v : α) :
    removeH (insertH r h v) h = removeH r h := by
  induction r with
  | nil => simp [insertH, removeH]
  | cons p rest ih =>
      obtain ⟨k0, w⟩ := p
      by_cases h0 : k0 = h
      · subst h0
        simp [insertH, removeH]
      · simp [insertH, removeH, h0, ih]

theorem mem_insertH {α : Type} : ∀ (r : List (Nat × α)) (h : Nat) (v : α)
    (p : Nat × α), p ∈ insertH r h v → p = (h, v) ∨ p ∈ r
  | [], h, v, p, hp => by
      simp only [insertH, List.mem_singleton] at hp
      exact Or.inl hp
  | (k0, w) :: rest, h, v, p, hp => by
      by_cases h0 : k0 = h
      · simp only [insertH, if_pos h0, List.mem_cons] at hp
        rcases hp with hp | hp
        · exact Or.inl hp
        · exact Or.inr (List.mem_cons_of_mem _ hp)
      · simp only [insertH, if_neg h0, List.mem_cons] at hp
        rcases hp with hp | hp
        · exact Or.inr (hp ▸ List.mem_cons_self _ _)
        · rcases mem_insertH rest h v p hp with hh | hh
          · exact Or.inl hh
          · exact Or.inr (List.mem_cons_of_mem _ hh)

theorem mem_removeH {α : Type} : ∀ (r : List (Nat × α)) (h : Nat)
    (p : Nat × α), p ∈ removeH r h → p ∈ r
  | [], h, p, hp => by simp [removeH] at hp
  | (k0, w) :: rest, h, p, hp => by
      by_cases h0 : k0 = h
      · simp only [removeH, if_pos h0] at hp
        exact List.mem_cons_of_mem _ hp
      · simp only [removeH, if_neg h0, List.mem_cons] at hp
        rcases hp with hp | hp
        · exact hp ▸ List.mem_cons_self _ _
        · exact List.mem_cons_of_mem _ (mem_removeH rest h p hp)

theorem lookupH_mem {α : Type} : ∀ (r : List (Nat × α)) (h : Nat) (v : α),
    lookupH r h = some v → (h, v) ∈ r
  | [], h, v, hl => by simp [lookupH] at hl
  | (k0, w) :: rest, h, v, hl => by
      by_cases h0 : k0 = h
      · subst h0
        simp only [lookupH, if_true, eq_self_iff_true, Option.some.injEq] at hl
        subst hl
        exact List.mem_cons_self _ _
      · simp only [lookupH, if_neg h0] at hl
        exact List.mem_cons_of_mem _ (lookupH_mem rest h v hl)

/-! ## `core-api` (`src/crates/core-api/src/lib.rs`)

`Flush` and `CompressionOptions` transcribed field by field. -/

inductive Flush where
  | None
  | Finish
deriving DecidableEq

structure CompressionOptions where
  level : Option Nat
  window_log : Option Nat
  threads : Nat
  enable_simd : Bool
deriving DecidableEq

/-- `impl Default for CompressionOptions`. -/
def CompressionOptions.default : CompressionOptions :=
  { level := none, window_log := none, threads := 1, enable_simd := true }

/-! ## `codec-brotli` (`src/crates/codec-brotli/src/lib.rs`)

`BrotliCompressor` wraps a `brotli::CompressorWriter<Vec<u8>>`.  The
external `brotli` crate is opaque; the wrapper observes exactly two
things about it, collected in `BrotliEngine`:

* `flushSink level written`: the contents of the `Vec<u8>` sink after
  `write_all(written)` followed by `flush()` (what
  `std::mem::take(self.encoder.get_mut())` returns in `compress_chunk`);
* `intoInner level written`: the buffer returned by
  `encoder.into_inner()` after `write_all(written); flush()` (what
  `compress_all` returns).

Writing into and flushing a `Vec<u8>` sink cannot fail, so both are
total functions. -/

structure BrotliEngine where
  flushSink : Nat → List Nat → List Nat
  intoInner : Nat → List Nat → List Nat

structure BrotliCompressor where
  level : Nat
  written : List Nat
  finished : Bool
deriving DecidableEq

/-- `BrotliCompressor::new` — `options.level.unwrap_or(6)`; always `Ok`. -/
def BrotliCompressor.new (options : CompressionOptions) : BrotliCompressor :=
  { level := options.level.getD 6, written := [], finished := false }

/-- `BrotliCompressor::compress_chunk` (lines 54–73 of the source):
refuse if finished; `write_all(input)`; on `Flush::Finish` set
`finished`, flush and take the sink; otherwise return an empty vector. -/
def BrotliCompressor.compress_chunk (E : BrotliEngine) (c : BrotliCompressor)
    (input : List Nat) (flush : Flush) :
    Except String (BrotliCompressor × List Nat) :=
  if c.finished then
    .error "Cannot compress after finish"
  else
    let c1 : BrotliCompressor := { c with written := c.written ++ input }
    match flush with
    | .Finish => .ok ({ c1 with finished := true }, E.flushSink c1.level c1.written)
    | .None => .ok (c1, [])

/-- `BrotliCompressor::compress_all` (one-shot). -/
def brotli_compress_all (E : BrotliEngine) (input : List Nat)
    (options : CompressionOptions) : List Nat :=
  E.intoInner (options.level.getD 6) input

/-! ## `codec-gzip` (`src/crates/codec-gzip/src/lib.rs`)

`GzipCompressor` wraps a `flate2::write::GzEncoder<Vec<u8>>`.  The
wrapper observes, via `GzipEngine`:

* `flushed level written`: cumulative sink bytes produced after
  `write_all(written)` followed by `flush()`;
* `total level written`: cumulative bytes after `write_all(written)`
  followed by `finish()` (including the gzip trailer).

The session keeps `delivered`, the number of cumulative sink bytes that
earlier `std::mem::swap`s have already moved out of the encoder, so
each call returns only the newly produced suffix. -/

/-- Level mapping in `GzipCompressor::new` / `compress_all`:
`0 => Compression::none()`, `l <= 9 => Compression::new(l)`,
`_ => Compression::best()`. -/
def gzipCompressionOf (level : Nat) : Nat :=
  if level = 0 then 0 else if level ≤ 9 then level else 9

structure GzipEngine where
  flushed : Nat → List Nat → List Nat
  total : Nat → List Nat → List Nat

structure GzipCompressor where
  level : Nat
  written : List Nat
  delivered : Nat
  finished : Bool
deriving DecidableEq

/-- `GzipCompressor::new`; always `Ok`. -/
def GzipCompressor.new (options : CompressionOptions) : GzipCompressor :=
  { level := gzipCompressionOf (options.level.getD 6), written := [],
    delivered := 0, finished := false }

/-- `GzipCompressor::compress_chunk` (lines 53–79): refuse if finished;
`write_all(input)`; on `Flush::Finish` swap in a dummy encoder and
`finish()` the old one (returning everything not yet swapped out);
otherwise `flush()` and swap the sink for an empty vector, returning
the newly flushed bytes. -/
def GzipCompressor.compress_chunk (E : GzipEngine) (c : GzipCompressor)
    (input : List Nat) (flush : Flush) :
    Except String (GzipCompressor × List Nat) :=
  if c.finished then
    .error "Cannot compress after finish"
  else
    let w := c.written ++ input
    match flush with
    | .Finish =>
        .ok ({ c with written := w, finished := true },
             (E.total c.level w).drop c.delivered)
    | .None =>
        let cum := E.flushed c.level w
        .ok ({ c with written := w, delivered := cum.length },
             cum.drop c.delivered)

/-- `GzipCompressor::compress_all` (one-shot): `write_all` then
`finish()`, no intermediate flush. -/
def gzip_compress_all (E : GzipEngine) (input : List Nat)
    (options : CompressionOptions) : List Nat :=
  E.total (gzipCompressionOf (options.level.getD 6)) input

/-! ## `codec-lz4` (`src/crates/codec-lz4/src/lib.rs`)

`Lz4Compressor` accumulates raw input; only the final call runs the
`lz4_flex::frame::FrameEncoder` one-shot (`frame`).  The binding's
streaming decompressor uses `lz4_flex::frame::FrameDecoder` one-shot
(`frameDecode`; `none` models a `read_to_end` error). -/

structure Lz4Engine where
  frame : List Nat → List Nat
  frameDecode : List Nat → Option (List Nat)

structure Lz4Compressor where
  buffer : List Nat
  finished : Bool
  level : Nat
deriving DecidableEq

/-- `Lz4Compressor::new` — `options.level.unwrap_or(4)`; always `Ok`. -/
def Lz4Compressor.new (options : CompressionOptions) : Lz4Compressor :=
  { buffer := [], finished := false, level := options.level.getD 4 }

/-- `Lz4Compressor::compress_chunk` (lines 39–62): refuse if finished;
accumulate the input; on `Flush::Finish` encode the whole buffer as one
frame; otherwise return an empty vector. -/
def Lz4Compressor.compress_chunk (E : Lz4Engine) (c : Lz4Compressor)
    (input : List Nat) (flush : Flush) :
    Except String (Lz4Compressor × List Nat) :=
  if c.finished then
    .error "Cannot compress after finish"
  else
    let b := c.buffer ++ input
    match flush with
    | .Finish => .ok ({ c with buffer := b, finished := true }, E.frame b)
    | .None => .ok ({ c with buffer := b }, [])

/-- `Lz4Compressor::compress_all` (one-shot; options ignored). -/
def lz4_compress_all (E : Lz4Engine) (input : List Nat)
    (_options : CompressionOptions) : List Nat :=
  E.frame input

/-! ## The chunk-feed dispatch shared by the three compressor bindings

`compress_brotli_chunk` (brotli-wasm lines 101–135), `compress_gzip_chunk`
(gzip-wasm lines 225–259) and `compress_chunk` (lz4-wasm lines 80–114)
are textually identical up to the codec type: look the handle up
(absent ⇒ `-1`), run `compress_chunk` on the session (error ⇒ `-1`,
session unchanged — the only error source is the `finished` guard,
which fires before any mutation), then: empty output ⇒ `0`; output
longer than the caller's buffer ⇒ negated length, nothing copied;
otherwise copy the output, remove the handle if this was a final
chunk, and return the length.  The registry after the call and the
bytes copied into the caller's buffer are returned explicitly. -/

def chunkDispatch {σ : Type} (reg : List (Nat × σ)) (handle : Nat)
    (run : σ → Except String (σ × List Nat)) (out_len : Nat)
    (finish : Bool) : List (Nat × σ) × Int × List Nat :=
  match lookupH reg handle with
  | none => (reg, -1, [])
  | some c =>
    match run c with
    | .error _ => (reg, -1, [])
    | .ok (c2, out) =>
      let reg2 := insertH reg handle c2
      if out.isEmpty then (reg2, 0, [])
      else if out_len < out.length then (reg2, -(out.length : Int), [])
      else
        let reg3 := if finish then removeH reg2 handle else reg2
        (reg3, (out.length : Int), out)

/-! ## `brotli-wasm` binding (`src/bindings/brotli-wasm/src/lib.rs`) -/

/-- `create_brotli_compressor`: allocate `next_handle()`, build the
session with `level: Some(level)`, insert it.  `BrotliCompressor::new`
always succeeds, so the `0` failure sentinel is never returned.
Result: (new counter, new registry, issued handle). -/
def create_brotli_compressor (counter : Nat)
    (reg : List (Nat × BrotliCompressor)) (level : Nat) :
    Nat × List (Nat × BrotliCompressor) × Nat :=
  (counter + 1,
   insertH reg counter
     (BrotliCompressor.new { CompressionOptions.default with level := some level }),
   counter)

/-- `compress_brotli_chunk` (lines 101–135). -/
def compress_brotli_chunk (E : BrotliEngine)
    (reg : List (Nat × BrotliCompressor)) (handle : Nat) (input : List Nat)
    (out_len : Nat) (finish : Bool) :
    List (Nat × BrotliCompressor) × Int × List Nat :=
  chunkDispatch reg handle
    (fun c => c.compress_chunk E input (if finish then Flush.Finish else Flush.None))
    out_len finish

/-- `destroy_brotli_compressor`. -/
def destroy_brotli_compressor (reg : List (Nat × BrotliCompressor))
    (handle : Nat) : List (Nat × BrotliCompressor) :=
  removeH reg handle

/-- `compress_brotli_raw` (lines 35–58, one-shot): run `compress_all`;
too-small buffer ⇒ negated length and nothing copied; otherwise copy
and return the length.  (`compress_all` cannot fail: its writes go to a
`Vec<u8>`, so the `Err => -1` arm is dead.) -/
def compress_brotli_raw (E : BrotliEngine) (input : List Nat)
    (out_len : Nat) (level : Nat) : Int × List Nat :=
  let out := brotli_compress_all E input
    { CompressionOptions.default with level := some level }
  if out_len < out.length then (-(out.length : Int), [])
  else ((out.length : Int), out)

/-- `decompress_brotli` (lines 147–169, one-shot).  `brotliDecode`
models `brotli::Decompressor::read_to_end`; `none` is an error. -/
def decompress_brotli (brotliDecode : List Nat → Option (List Nat))
    (input : List Nat) (out_len : Nat) : Int × List Nat :=
  match brotliDecode input with
  | some output =>
      if out_len < output.length then (-(output.length : Int), [])
      else ((output.length : Int), output)
  | none => (-1, [])

/-! ## `gzip-wasm` binding (`src/bindings/gzip-wasm/src/lib.rs`) -/

/-- `GzipDecompressorState` (lines 44–63): the cursor-backed compressed
input (`compressed` is the cursor's underlying `Vec`), the pending
decompressed bytes not yet returned, the read cursor into them, and the
`done` flag.  `produced` counts the decompressed bytes the `GzDecoder`
has already emitted (part of the opaque decoder state in Rust). -/
structure GzipDecompressorState where
  compressed : List Nat
  produced : Nat
  pending : List Nat
  pending_offset : Nat
  done : Bool
deriving DecidableEq

/-- `GzipDecompressorState::new`. -/
def GzipDecompressorState.new : GzipDecompressorState :=
  { compressed := [], produced := 0, pending := [], pending_offset := 0,
    done := false }

/-- Observable behaviour of `flate2::bufread::GzDecoder` consumed by
`decompress_gzip_chunk`:

* `decoded c`: the decompressed bytes extractable from compressed
  prefix `c`;
* `complete c`: the gzip stream in `c` has reached its proper end
  (`read` then returns `Ok(0)`);
* `malformed c`: `read` fails with a hard (non-`UnexpectedEof`) error.

When new decoded bytes are available, `read(buf)` deterministically
returns `min buf.len available` of them. -/
structure GzDecoderEngine where
  decoded : List Nat → List Nat
  complete : List Nat → Bool
  malformed : List Nat → Bool

/-- `create_gzip_decompressor` (lines 66–70). -/
def create_gzip_decompressor (counter : Nat)
    (reg : List (Nat × GzipDecompressorState)) :
    Nat × List (Nat × GzipDecompressorState) × Nat :=
  (counter + 1, insertH reg counter GzipDecompressorState.new, counter)

/-- `destroy_gzip_decompressor` (lines 73–75). -/
def destroy_gzip_decompressor (reg : List (Nat × GzipDecompressorState))
    (handle : Nat) : List (Nat × GzipDecompressorState) :=
  removeH reg handle

/-- `decompress_gzip_chunk` (lines 78–162), transcribed branch by
branch: unknown handle ⇒ `-1`; pending output is drained first (with an
early return that never touches the input); otherwise the input is
appended to the cursor (`if in_len > 0`), a read of capacity
`max out_len 8192` is attempted, and the result is returned directly,
stashed into `pending` when it exceeds the caller's buffer, or mapped
to `0` / `-1` on the end-of-stream and error paths. -/
def decompress_gzip_chunk (E : GzDecoderEngine)
    (reg : List (Nat × GzipDecompressorState)) (handle : Nat)
    (input : List Nat) (out_len : Nat) (finish : Bool) :
    List (Nat × GzipDecompressorState) × Int × List Nat :=
  match lookupH reg handle with
  | none => (reg, -1, [])
  | some st =>
    if st.pending_offset < st.pending.length then
      let remaining := st.pending.length - st.pending_offset
      let to_copy := min remaining out_len
      if 0 < to_copy then
        let written := (st.pending.drop st.pending_offset).take to_copy
        let off2 := st.pending_offset + to_copy
        let st2 :=
          if st.pending.length ≤ off2 then
            { st with pending := [], pending_offset := 0 }
          else
            { st with pending_offset := off2 }
        (insertH reg handle st2, (to_copy : Int), written)
      else
        (reg, 0, [])
    else
      let st1 :=
        if input.isEmpty then st
        else { st with compressed := st.compressed ++ input }
      let cap := max out_len 8192
      let stream := E.decoded st1.compressed
      let avail := stream.length - st1.produced
      if avail = 0 then
        if E.complete st1.compressed then
          let st2 := { st1 with done := true }
          if finish then (removeH (insertH reg handle st2) handle, 0, [])
          else (insertH reg handle st2, 0, [])
        else if E.malformed st1.compressed then
          if finish then (removeH (insertH reg handle st1) handle, -1, [])
          else (insertH reg handle st1, -1, [])
        else
          if finish then (removeH (insertH reg handle st1) handle, -1, [])
          else (insertH reg handle st1, 0, [])
      else
        let n := min cap avail
        let bytes := (stream.drop st1.produced).take n
        let st2 := { st1 with produced := st1.produced + n }
        if out_len < n then
          let st3 := { st2 with pending := bytes, pending_offset := out_len }
          (insertH reg handle st3, (out_len : Int), bytes.take out_len)
        else
          (insertH reg handle st2, (n : Int), bytes)

/-- `compress_gzip_raw` (lines 164–187, one-shot). -/
def compress_gzip_raw (E : GzipEngine) (input : List Nat) (out_len : Nat)
    (level : Nat) : Int × List Nat :=
  let out := gzip_compress_all E input
    { CompressionOptions.default with level := some level }
  if out_len < out.length then (-(out.length : Int), [])
  else ((out.length : Int), out)

/-- `create_gzip_compressor` (lines 209–222). -/
def create_gzip_compressor (counter : Nat)
    (reg : List (Nat × GzipCompressor)) (level : Nat) :
    Nat × List (Nat × GzipCompressor) × Nat :=
  (counter + 1,
   insertH reg counter
     (GzipCompressor.new { CompressionOptions.default with level := some level }),
   counter)

/-- `compress_gzip_chunk` (lines 225–259). -/
def compress_gzip_chunk (E : GzipEngine)
    (reg : List (Nat × GzipCompressor)) (handle : Nat) (input : List Nat)
    (out_len : Nat) (finish : Bool) :
    List (Nat × GzipCompressor) × Int × List Nat :=
  chunkDispatch reg handle
    (fun c => c.compress_chunk E input (if finish then Flush.Finish else Flush.None))
    out_len finish

/-- `destroy_gzip_compressor`. -/
def destroy_gzip_compressor (reg : List (Nat × GzipCompressor))
    (handle : Nat) : List (Nat × GzipCompressor) :=
  removeH reg handle

/-- `decompress_gzip` (lines 271–291, one-shot); `gzDecode` models
`flate2::read::GzDecoder::read_to_end`, `none` is an error. -/
def decompress_gzip (gzDecode : List Nat → Option (List Nat))
    (input : List Nat) (out_len : Nat) : Int × List Nat :=
  match gzDecode input with
  | some output =>
      if out_len < output.length then (-(output.length : Int), [])
      else ((output.length : Int), output)
  | none => (-1, [])

/-! ## `lz4-wasm` binding (`src/bindings/lz4-wasm/src/lib.rs`) -/

/-- `compress_lz4` (lines 44–63, one-shot). -/
def compress_lz4 (E : Lz4Engine) (input : List Nat) (out_len : Nat) :
    Int × List Nat :=
  let out := lz4_compress_all E input CompressionOptions.default
  if out_len < out.length then (-(out.length : Int), [])
  else ((out.length : Int), out)

/-- `create_compressor` (lines 67–77). -/
def create_compressor (counter : Nat) (reg : List (Nat × Lz4Compressor)) :
    Nat × List (Nat × Lz4Compressor) × Nat :=
  (counter + 1, insertH reg counter (Lz4Compressor.new CompressionOptions.default),
   counter)

/-- `compress_chunk` (lines 80–114). -/
def compress_chunk (E : Lz4Engine) (reg : List (Nat × Lz4Compressor))
    (handle : Nat) (input : List Nat) (out_len : Nat) (finish : Bool) :
    List (Nat × Lz4Compressor) × Int × List Nat :=
  chunkDispatch reg handle
    (fun c => c.compress_chunk E input (if finish then Flush.Finish else Flush.None))
    out_len finish

/-- `destroy_compressor` (lines 117–119). -/
def destroy_compressor (reg : List (Nat × Lz4Compressor)) (handle : Nat) :
    List (Nat × Lz4Compressor) :=
  removeH reg handle

/-- `decompress_lz4` (lines 173–192, one-shot). -/
def decompress_lz4 (E : Lz4Engine) (input : List Nat) (out_len : Nat) :
    Int × List Nat :=
  match E.frameDecode input with
  | some output =>
      if out_len < output.length then (-(output.length : Int), [])
      else ((output.length : Int), output)
  | none => (-1, [])

/-- `DecompressorState` (lines 25–27): the accumulated compressed frame. -/
structure DecompressorState where
  buffer : List Nat
deriving DecidableEq

/-- `create_decompressor` (lines 195–202). -/
def create_decompressor (counter : Nat)
    (reg : List (Nat × DecompressorState)) :
    Nat × List (Nat × DecompressorState) × Nat :=
  (counter + 1, insertH reg counter { buffer := [] }, counter)

/-- `decompress_chunk` (lines 205–247): unknown handle ⇒ `-1`;
append the input; on a final call run the one-shot frame decode over
the whole accumulated buffer (too-small buffer ⇒ negated length with
the session kept; success ⇒ copy, remove the handle, return the length;
decode error ⇒ remove the handle, return `-1`); a non-final call
returns `0`. -/
def decompress_chunk (E : Lz4Engine) (reg : List (Nat × DecompressorState))
    (handle : Nat) (input : List Nat) (out_len : Nat) (finish : Bool) :
    List (Nat × DecompressorState) × Int × List Nat :=
  match lookupH reg handle with
  | none => (reg, -1, [])
  | some s =>
    let s1 : DecompressorState := { buffer := s.buffer ++ input }
    if finish then
      match E.frameDecode s1.buffer with
      | some output =>
          if out_len < output.length then
            (insertH reg handle s1, -(output.length : Int), [])
          else
            (removeH (insertH reg handle s1) handle, (output.length : Int), output)
      | none => (removeH (insertH reg handle s1) handle, -1, [])
    else
      (insertH reg handle s1, 0, [])

/-- `destroy_decompressor` (lines 250–252). -/
def destroy_decompressor (reg : List (Nat × DecompressorState))
    (handle : Nat) : List (Nat × DecompressorState) :=
  removeH reg handle

/-! ## Concrete engine instances

Fixed, computable engines used to obtain closed runs of the bindings.
Where a property below is refuted, the refutation is forced by the
wrapper code for *every* engine (see the universally quantified
theorems next to each closed one); the fixed engines only make the
failing runs closed, evaluable terms. -/

def sampleBrotliEngine : BrotliEngine :=
  { flushSink := fun _ _ => [7, 7, 7],
    intoInner := fun _ _ => [7, 7, 7, 1] }

def sampleGzipEngine : GzipEngine :=
  { flushed := fun _ w => if w.isEmpty then [] else [31, 139],
    total := fun _ _ => [5, 5, 5, 5] }

def sampleLz4Engine : Lz4Engine :=
  { frame := fun _ => [9, 9],
    frameDecode := fun c => if c = [9, 9] then some [1, 2] else none }

def sampleGzDecoder : GzDecoderEngine :=
  { decoded := fun c =>
      if c = [9] then [1, 2] else if c = [3] then [1, 2, 3, 4] else [],
    complete := fun c => c == [9],
    malformed := fun _ => false }

/-- The bytes of `"hello "`. -/
def helloSpace : List Nat := [104, 101, 108, 108, 111, 32]

/-! ## Generic facts about the shared chunk dispatch -/

/-- Output longer than the caller's buffer: the dispatch returns the
negated output length, copies nothing, and stores the (already
mutated) session back — the handle is not removed, final or not. -/
theorem chunkDispatch_too_small {σ : Type} (reg : List (Nat × σ)) (h : Nat)
    (run : σ → Except String (σ × List Nat)) (out_len : Nat) (finish : Bool)
    (c c2 : σ) (out : List Nat) (hl : lookupH reg h = some c)
    (hr : run c = .ok (c2, out)) (hsize : out_len < out.length) :
    chunkDispatch reg h run out_len finish =
      (insertH reg h c2, -(out.length : Int), []) := by
  have hne : out.isEmpty = false := by
    cases out with
    | nil => simp at hsize
    | cons a l => rfl
  simp [chunkDispatch, hl, hr, hne, hsize]

/-- A session whose `run` fails leaves the registry untouched and
returns `-1`: the session is *not* removed. -/
theorem chunkDispatch_error {σ : Type} (reg : List (Nat × σ)) (h : Nat)
    (run : σ → Except String (σ × List Nat)) (out_len : Nat) (finish : Bool)
    (c : σ) (msg : String) (hl : lookupH reg h = some c)
    (hr : run c = .error msg) :
    chunkDispatch reg h run out_len finish = (reg, -1, []) := by
  simp [chunkDispatch, hl, hr]

/-- A successful final chunk whose output fits removes the handle. -/
theorem chunkDispatch_final_success {σ : Type} (reg : List (Nat × σ))
    (h : Nat) (run : σ → Except String (σ × List Nat)) (out_len : Nat)
    (c c2 : σ) (out : List Nat) (hl : lookupH reg h = some c)
    (hr : run c = .ok (c2, out)) (hne : out ≠ [])
    (hsize : out.length ≤ out_len) :
    chunkDispatch reg h run out_len true =
      (removeH reg h, (out.length : Int), out) := by
  have hne2 : out.isEmpty = false := by
    cases out with
    | nil => exact absurd rfl hne
    | cons a l => rfl
  have hlt : ¬ out_len < out.length := not_lt.mpr hsize
  simp [chunkDispatch, hl, hr, hne2, hlt, removeH_insertH]

/-- An unknown handle returns `-1` and changes nothing. -/
theorem chunkDispatch_not_found {σ : Type} (reg : List (Nat × σ)) (h : Nat)
    (run : σ → Except String (σ × List Nat)) (out_len : Nat) (finish : Bool)
    (hl : lookupH reg h = none) :
    chunkDispatch reg h run out_len finish = (reg, -1, []) := by
  simp [chunkDispatch, hl]

/-! ## Claim C6 — brotli non-final feeds -/

/-- C6 counterexample: feeding a first non-final chunk of `"hello "` to
a fresh brotli streaming compressor returns *empty* output — the code's
non-final branch returns `Ok(Vec::new())` without ever flushing the
engine — although the claim requires non-empty output (header bytes).
The second conjunct shows the engine's flushed sink would have been
non-empty, so the emptiness comes from the wrapper, not the engine. -/
theorem c6_counterexample :
    (BrotliCompressor.new CompressionOptions.default).compress_chunk
        sampleBrotliEngine helloSpace Flush.None =
      .ok ({ level := 6, written := helloSpace, finished := false }, []) ∧
    sampleBrotliEngine.flushSink 6 helloSpace ≠ [] := by
  exact ⟨rfl, by decide⟩

/-- C6 (amended): every non-final feed on the brotli streaming
compressor only writes the input into the engine and returns empty
output; the engine is flushed and its sink drained solely on the final
call. -/
theorem c6_brotli_nonfinal_returns_empty (E : BrotliEngine)
    (c : BrotliCompressor) (input : List Nat) (h : c.finished = false) :
    c.compress_chunk E input Flush.None =
      .ok ({ c with written := c.written ++ input }, []) := by
  simp [BrotliCompressor.compress_chunk, h]

theorem c6_brotli_nonfinal_returns_empty_witness :
    (BrotliCompressor.new CompressionOptions.default).compress_chunk
        sampleBrotliEngine [1, 2] Flush.None =
      .ok ({ BrotliCompressor.new CompressionOptions.default with
              written := (BrotliCompressor.new CompressionOptions.default).written ++ [1, 2] },
           []) :=
  c6_brotli_nonfinal_returns_empty sampleBrotliEngine _ [1, 2] rfl

/-! ## Claim C1 — too-small output buffer on streaming feeds -/

/-- C1 counterexample: on the brotli binding, a final-flagged feed with
an undersized buffer writes no bytes and returns the negated required
size `-3`, but it mutates the session (the input is consumed and
`finished` is set, and the finished session stays in the registry), so
reissuing the same call with a buffer of the required size 3 returns
`-1` instead of succeeding.  The first conjunct shows the starting
registry is the one `create_brotli_compressor` produces. -/
theorem c1_counterexample :
    create_brotli_compressor 1 [] 6 =
      (2, [(1, { level := 6, written := [], finished := false })], 1) ∧
    compress_brotli_chunk sampleBrotliEngine
        [(1, { level := 6, written := [], finished := false })] 1 [1] 0 true =
      ([(1, { level := 6, written := [1], finished := true })], -3, []) ∧
    compress_brotli_chunk sampleBrotliEngine
        [(1, { level := 6, written := [1], finished := true })] 1 [1] 3 true =
      ([(1, { level := 6, written := [1], finished := true })], -1, []) := by
  decide

/-- C1 (amended): when the caller's buffer is too small, every feed
with a negated-size path (the three compressor bindings and the lz4
streaming decompressor) writes no bytes, returns the negated required
count, and keeps the handle in the registry — but the session state is
already mutated: the input has been consumed, and a final call has
already finished the stream, so reissuing the final call with a
sufficient buffer returns `-1` rather than succeeding (shown for
brotli; the other compressor bindings share the same dispatch). -/
theorem c1_amended
    (E : BrotliEngine) (G : GzipEngine) (L : Lz4Engine)
    (regB : List (Nat × BrotliCompressor)) (regG : List (Nat × GzipCompressor))
    (regL : List (Nat × Lz4Compressor)) (regD : List (Nat × DecompressorState))
    (h : Nat) (input : List Nat) (out_len : Nat)
    (cB : BrotliCompressor) (cG : GzipCompressor) (cL : Lz4Compressor)
    (sD : DecompressorState) (outD : List Nat)
    (hB : lookupH regB h = some cB) (hBf : cB.finished = false)
    (hBs : out_len < (E.flushSink cB.level (cB.written ++ input)).length)
    (hG : lookupH regG h = some cG) (hGf : cG.finished = false)
    (hGs : out_len < ((G.total cG.level (cG.written ++ input)).drop cG.delivered).length)
    (hL : lookupH regL h = some cL) (hLf : cL.finished = false)
    (hLs : out_len < (L.frame (cL.buffer ++ input)).length)
    (hD : lookupH regD h = some sD)
    (hDd : L.frameDecode (sD.buffer ++ input) = some outD)
    (hDs : out_len < outD.length) :
    (compress_brotli_chunk E regB h input out_len true =
       (insertH regB h { cB with written := cB.written ++ input, finished := true },
        -((E.flushSink cB.level (cB.written ++ input)).length : Int), []) ∧
     compress_brotli_chunk E
        (insertH regB h { cB with written := cB.written ++ input, finished := true })
        h input (E.flushSink cB.level (cB.written ++ input)).length true =
       (insertH regB h { cB with written := cB.written ++ input, finished := true },
        -1, [])) ∧
    compress_gzip_chunk G regG h input out_len true =
      (insertH regG h { cG with written := cG.written ++ input, finished := true },
       -(((G.total cG.level (cG.written ++ input)).drop cG.delivered).length : Int), []) ∧
    compress_chunk L regL h input out_len true =
      (insertH regL h { cL with buffer := cL.buffer ++ input, finished := true },
       -((L.frame (cL.buffer ++ input)).length : Int), []) ∧
    decompress_chunk L regD h input out_len true =
      (insertH regD h { buffer := sD.buffer ++ input }, -(outD.length : Int), []) := by
  refine ⟨⟨?_, ?_⟩, ?_, ?_, ?_⟩
  · exact chunkDispatch_too_small regB h _ out_len true cB
      { cB with written := cB.written ++ input, finished := true }
      (E.flushSink cB.level (cB.written ++ input)) hB
      (by simp [BrotliCompressor.compress_chunk, hBf]) hBs
  · refine chunkDispatch_error _ h _ _ true
      { cB with written := cB.written ++ input, finished := true }
      "Cannot compress after finish" ?_ ?_
    · rw [lookupH_insertH]
      simp
    · simp [BrotliCompressor.compress_chunk]
  · exact chunkDispatch_too_small regG h _ out_len true cG
      { cG with written := cG.written ++ input, finished := true }
      ((G.total cG.level (cG.written ++ input)).drop cG.delivered) hG
      (by simp [GzipCompressor.compress_chunk, hGf]) hGs
  · exact chunkDispatch_too_small regL h _ out_len true cL
      { cL with buffer := cL.buffer ++ input, finished := true }
      (L.frame (cL.buffer ++ input)) hL
      (by simp [Lz4Compressor.compress_chunk, hLf]) hLs
  · simp [decompress_chunk, hD, hDd, hDs]

theorem c1_amended_witness :
    ((compress_brotli_chunk sampleBrotliEngine
        [(1, { level := 6, written := [], finished := false })] 1 [9, 9] 0 true =
       ([(1, { level := 6, written := [9, 9], finished := true })], -3, []) ∧
      compress_brotli_chunk sampleBrotliEngine
        [(1, { level := 6, written := [9, 9], finished := true })] 1 [9, 9] 3 true =
       ([(1, { level := 6, written := [9, 9], finished := true })], -1, [])) ∧
     compress_gzip_chunk sampleGzipEngine
        [(1, { level := 6, written := [], delivered := 0, finished := false })] 1 [9, 9] 0 true =
       ([(1, { level := 6, written := [9, 9], delivered := 0, finished := true })], -4, []) ∧
     compress_chunk sampleLz4Engine
        [(1, { buffer := [], finished := false, level := 4 })] 1 [9, 9] 0 true =
       ([(1, { buffer := [9, 9], finished := true, level := 4 })], -2, []) ∧
     decompress_chunk sampleLz4Engine
        [(1, { buffer := [] })] 1 [9, 9] 0 true =
       ([(1, { buffer := [9, 9] })], -2, [])) :=
  c1_amended sampleBrotliEngine sampleGzipEngine sampleLz4Engine
    [(1, { level := 6, written := [], finished := false })]
    [(1, { level := 6, written := [], delivered := 0, finished := false })]
    [(1, { buffer := [], finished := false, level := 4 })]
    [(1, { buffer := [] })] 1 [9, 9] 0
    { level := 6, written := [], finished := false }
    { level := 6, written := [], delivered := 0, finished := false }
    { buffer := [], finished := false, level := 4 }
    { buffer := [] } [1, 2]
    (by decide) (by decide) (by decide) (by decide) (by decide) (by decide)
    (by decide) (by decide) (by decide) (by decide) (by decide) (by decide)

/-! ## Claim C8 — buffer negotiation, one-shot vs. streaming -/

/-- C8 counterexample: the claim extends negotiation-retry to streaming
calls, but a gzip streaming final feed first issued with an undersized
buffer returns `-4`, and the identical call with a buffer of exactly
that size returns `-1` — not the promised success of 4 bytes — because
the first call already finished the session. -/
theorem c8_counterexample :
    create_gzip_compressor 1 [] 6 =
      (2, [(1, { level := 6, written := [], delivered := 0, finished := false })], 1) ∧
    compress_gzip_chunk sampleGzipEngine
        [(1, { level := 6, written := [], delivered := 0, finished := false })] 1 [2] 0 true =
      ([(1, { level := 6, written := [2], delivered := 0, finished := true })], -4, []) ∧
    compress_gzip_chunk sampleGzipEngine
        [(1, { level := 6, written := [2], delivered := 0, finished := true })] 1 [2] 4 true =
      ([(1, { level := 6, written := [2], delivered := 0, finished := true })], -1, []) := by
  decide

/-- C8 (amended): for the one-shot operations (shown for the cited
`compress_gzip_raw` and `decompress_brotli`) the protocol is exact: an
undersized call returns the negated required size and writes nothing,
and the identical call with a buffer of exactly that size succeeds,
returning exactly that many bytes.  Streaming calls do not satisfy the
retry half (see the counterexample). -/
theorem c8_oneshot_negotiation
    (G : GzipEngine) (dec : List Nat → Option (List Nat))
    (inputG inputB : List Nat) (lenG lenB level : Nat) (output : List Nat)
    (hg : lenG < (gzip_compress_all G inputG
            { CompressionOptions.default with level := some level }).length)
    (hd : dec inputB = some output) (hb : lenB < output.length) :
    (compress_gzip_raw G inputG lenG level =
       (-((gzip_compress_all G inputG
            { CompressionOptions.default with level := some level }).length : Int), []) ∧
     compress_gzip_raw G inputG
        (gzip_compress_all G inputG
          { CompressionOptions.default with level := some level }).length level =
       (((gzip_compress_all G inputG
          { CompressionOptions.default with level := some level }).length : Int),
        gzip_compress_all G inputG
          { CompressionOptions.default with level := some level })) ∧
    (decompress_brotli dec inputB lenB = (-(output.length : Int), []) ∧
     decompress_brotli dec inputB output.length = ((output.length : Int), output)) := by
  refine ⟨⟨?_, ?_⟩, ?_, ?_⟩
  · simp [compress_gzip_raw, hg]
  · simp [compress_gzip_raw]
  · simp [decompress_brotli, hd, hb]
  · simp [decompress_brotli, hd]

theorem c8_oneshot_negotiation_witness :
    ((compress_gzip_raw sampleGzipEngine [2] 0 6 = (-4, []) ∧
      compress_gzip_raw sampleGzipEngine [2] 4 6 = (4, [5, 5, 5, 5])) ∧
     (decompress_brotli sampleLz4Engine.frameDecode [9, 9] 0 = (-2, []) ∧
      decompress_brotli sampleLz4Engine.frameDecode [9, 9] 2 = (2, [1, 2]))) :=
  c8_oneshot_negotiation sampleGzipEngine sampleLz4Engine.frameDecode
    [2] [9, 9] 0 0 6 [1, 2] (by decide) (by decide) (by decide)

/-! ## Key-uniqueness is preserved by the registry operations -/

theorem mem_keys_insertH {α : Type} (r : List (Nat × α)) (h x : Nat) (v : α)
    (hx : x ∈ (insertH r h v).map Prod.fst) : x = h ∨ x ∈ r.map Prod.fst := by
  rcases List.mem_map.mp hx with ⟨p, hp, hpx⟩
  rcases mem_insertH r h v p hp with hh | hh
  · left
    rw [← hpx, hh]
  · right
    exact hpx ▸ List.mem_map_of_mem _ hh

theorem keysNodup_insertH {α : Type} (r : List (Nat × α)) (h : Nat) (v : α)
    (hnd : KeysNodup r) : KeysNodup (insertH r h v) := by
  induction r with
  | nil => simp [insertH, KeysNodup]
  | cons p rest ih =>
      obtain ⟨k0, w⟩ := p
      simp only [KeysNodup, List.map_cons, List.nodup_cons] at hnd
      by_cases h0 : k0 = h
      · subst h0
        simp only [insertH, eq_self_iff_true, if_true, ite_true, KeysNodup,
          List.map_cons, List.nodup_cons]
        exact hnd
      · simp only [insertH, if_neg h0, KeysNodup, List.map_cons, List.nodup_cons]
        refine ⟨?_, ih hnd.2⟩
        intro hmem
        rcases mem_keys_insertH rest h k0 v hmem with hh | hh
        · exact h0 hh
        · exact hnd.1 hh

/-- A single-entry registry: every successful lookup yields the entry. -/
theorem lookupH_singleton {α : Type} (h0 k : Nat) (v c : α)
    (hl : lookupH [(h0, v)] k = some c) : c = v := by
  by_cases h1 : h0 = k
  · simp only [lookupH, if_pos h1, Option.some.injEq] at hl
    exact hl.symm
  · simp [lookupH, h1] at hl

/-! ## More dispatch facts -/

/-- Empty output: the dispatch returns `0` and stores the mutated
session back, without removing the handle even on a final chunk. -/
theorem chunkDispatch_empty_out {σ : Type} (reg : List (Nat × σ)) (h : Nat)
    (run : σ → Except String (σ × List Nat)) (out_len : Nat) (finish : Bool)
    (c c2 : σ) (hl : lookupH reg h = some c) (hr : run c = .ok (c2, [])) :
    chunkDispatch reg h run out_len finish = (insertH reg h c2, 0, []) := by
  simp [chunkDispatch, hl, hr]

/-- With `finish = false` the registry after a successful dispatch is
always `insertH reg h c2`, whatever the output size. -/
theorem chunkDispatch_reg_ok_nonfinal {σ : Type} (reg : List (Nat × σ))
    (h : Nat) (run : σ → Except String (σ × List Nat)) (out_len : Nat)
    (c c2 : σ) (out : List Nat) (hl : lookupH reg h = some c)
    (hr : run c = .ok (c2, out)) :
    (chunkDispatch reg h run out_len false).1 = insertH reg h c2 := by
  simp only [chunkDispatch, hl, hr]
  split_ifs <;> first | rfl | contradiction

/-- With `finish = true` a successful dispatch either keeps the mutated
session and returns a non-positive value (empty or oversized output) or
removes the handle. -/
theorem chunkDispatch_final_cases {σ : Type} (reg : List (Nat × σ))
    (h : Nat) (run : σ → Except String (σ × List Nat)) (out_len : Nat)
    (c c2 : σ) (out : List Nat) (hl : lookupH reg h = some c)
    (hr : run c = .ok (c2, out)) :
    ((chunkDispatch reg h run out_len true).1 = insertH reg h c2 ∧
     (chunkDispatch reg h run out_len true).2.1 ≤ 0) ∨
    (chunkDispatch reg h run out_len true).1 = removeH reg h := by
  by_cases he : out.isEmpty
  · left
    have hout : out = [] := by
      cases out with
      | nil => rfl
      | cons a l => simp at he
    subst hout
    rw [chunkDispatch_empty_out reg h run out_len true c c2 hl hr]
    exact ⟨rfl, le_refl 0⟩
  · by_cases hs : out_len < out.length
    · left
      rw [chunkDispatch_too_small reg h run out_len true c c2 out hl hr hs]
      refine ⟨rfl, ?_⟩
      simp only []
      omega
    · right
      have hne : out ≠ [] := by
        cases out with
        | nil => simp at he
        | cons a l => exact List.cons_ne_nil a l
      rw [chunkDispatch_final_success reg h run out_len c c2 out hl hr hne
            (not_lt.mp hs)]

/-! ## Claim C4 — no finished session stays registered -/

/-- C4 counterexample: on the gzip compressor binding, a final-flagged
feed with an undersized buffer returns the negated size and leaves the
session — whose `finished` flag is now `true` — in the registry: the
reachable post-state refutes the invariant that registered sessions are
never finished. -/
theorem c4_counterexample :
    create_gzip_compressor 1 [] 6 =
      (2, [(1, { level := 6, written := [], delivered := 0, finished := false })], 1) ∧
    compress_gzip_chunk sampleGzipEngine
        [(1, { level := 6, written := [], delivered := 0, finished := false })]
        1 [7] 0 true =
      ([(1, { level := 6, written := [7], delivered := 0, finished := true })], -4, []) ∧
    lookupH
        [(1, ({ level := 6, written := [7], delivered := 0, finished := true } : GzipCompressor))]
        1 =
      some { level := 6, written := [7], delivered := 0, finished := true } := by
  decide

/-- C4 (amended): after a feed on the gzip compressor binding, every
registered session is still non-finished **except** when the feed was
final-flagged and returned a non-positive value (empty output, or the
negated needed size): those paths return before the removal and leave
the finished session registered so the caller can still retry. -/
theorem c4_amended (G : GzipEngine) (reg : List (Nat × GzipCompressor))
    (h k : Nat) (input : List Nat) (out_len : Nat) (finish : Bool)
    (c : GzipCompressor) (hnd : KeysNodup reg)
    (hinv : ∀ k2 c2, lookupH reg k2 = some c2 → c2.finished = false)
    (hk : lookupH (compress_gzip_chunk G reg h input out_len finish).1 k = some c) :
    c.finished = false ∨
      (k = h ∧ finish = true ∧
        (compress_gzip_chunk G reg h input out_len finish).2.1 ≤ 0) := by
  cases hreg : lookupH reg h with
  | none =>
      simp only [compress_gzip_chunk] at hk
      rw [chunkDispatch_not_found reg h _ out_len finish hreg] at hk
      exact Or.inl (hinv k c hk)
  | some c0 =>
      have hc0 : c0.finished = false := hinv h c0 hreg
      cases finish with
      | false =>
          have hreg2 := chunkDispatch_reg_ok_nonfinal reg h
            (fun c => c.compress_chunk G input
              (if false = true then Flush.Finish else Flush.None)) out_len c0
            ({ c0 with
                written := c0.written ++ input,
                delivered := (G.flushed c0.level (c0.written ++ input)).length })
            ((G.flushed c0.level (c0.written ++ input)).drop c0.delivered)
            hreg (by simp [GzipCompressor.compress_chunk, hc0])
          simp only [compress_gzip_chunk] at hk
          rw [hreg2, lookupH_insertH] at hk
          by_cases hkh : k = h
          · rw [if_pos hkh] at hk
            cases hk
            exact Or.inl hc0
          · rw [if_neg hkh] at hk
            exact Or.inl (hinv k c hk)
      | true =>
          have hcases := chunkDispatch_final_cases reg h
            (fun c => c.compress_chunk G input
              (if true = true then Flush.Finish else Flush.None)) out_len c0
            ({ c0 with written := c0.written ++ input, finished := true })
            ((G.total c0.level (c0.written ++ input)).drop c0.delivered)
            hreg (by simp [GzipCompressor.compress_chunk, hc0])
          simp only [compress_gzip_chunk] at hk ⊢
          simp only [eq_self_iff_true] at hcases
          rcases hcases with ⟨hr1, hr2⟩ | hr1
          · rw [hr1, lookupH_insertH] at hk
            by_cases hkh : k = h
            · exact Or.inr ⟨hkh, trivial, hr2⟩
            · rw [if_neg hkh] at hk
              exact Or.inl (hinv k c hk)
          · rw [hr1] at hk
            by_cases hkh : k = h
            · rw [hkh, lookupH_removeH_self reg h hnd] at hk
              cases hk
            · rw [lookupH_removeH_ne reg h k hkh] at hk
              exact Or.inl (hinv k c hk)

theorem c4_amended_witness :
    ({ level := 6, written := [7], delivered := 0, finished := true } :
        GzipCompressor).finished = false ∨
      ((1 : Nat) = 1 ∧ true = true ∧
        (compress_gzip_chunk sampleGzipEngine
          [(1, { level := 6, written := [], delivered := 0, finished := false })]
          1 [7] 0 true).2.1 ≤ 0) :=
  c4_amended sampleGzipEngine
    [(1, { level := 6, written := [], delivered := 0, finished := false })]
    1 1 [7] 0 true
    { level := 6, written := [7], delivered := 0, finished := true }
    (by decide)
    (fun k2 c2 hkc => by rw [lookupH_singleton 1 k2 _ c2 hkc])
    (by decide)

/-! ## Path lemmas for `decompress_gzip_chunk`

One equation per control-flow path of the Rust function; every later
theorem about the gzip streaming decompressor is assembled from these. -/

/-- The `if in_len > 0` append step: appending is the net effect
whether or not the input is empty. -/
theorem gz_append_state (st : GzipDecompressorState) (input : List Nat) :
    (if input.isEmpty then st
     else { st with compressed := st.compressed ++ input }) =
      { st with compressed := st.compressed ++ input } := by
  cases input with
  | nil => simp
  | cons a l => rfl

/-- Unknown handle: `-1`, nothing changes. -/
theorem gz_chunk_not_found (E : GzDecoderEngine)
    (reg : List (Nat × GzipDecompressorState)) (handle : Nat)
    (input : List Nat) (out_len : Nat) (finish : Bool)
    (hl : lookupH reg handle = none) :
    decompress_gzip_chunk E reg handle input out_len finish = (reg, -1, []) := by
  simp [decompress_gzip_chunk, hl]

/-- Drain path with something to copy: the pending bytes are served,
the cursor advances (and resets when fully drained), and the input is
never appended. -/
theorem gz_chunk_drain_pos (E : GzDecoderEngine)
    (reg : List (Nat × GzipDecompressorState)) (handle : Nat)
    (input : List Nat) (out_len : Nat) (finish : Bool)
    (st : GzipDecompressorState) (hl : lookupH reg handle = some st)
    (hdr : st.pending_offset < st.pending.length)
    (hpos : 0 < min (st.pending.length - st.pending_offset) out_len) :
    decompress_gzip_chunk E reg handle input out_len finish =
      (insertH reg handle
        (if st.pending.length ≤
            st.pending_offset + min (st.pending.length - st.pending_offset) out_len
         then { st with pending := [], pending_offset := 0 }
         else { st with pending_offset :=
                  st.pending_offset + min (st.pending.length - st.pending_offset) out_len }),
       ((min (st.pending.length - st.pending_offset) out_len : Nat) : Int),
       (st.pending.drop st.pending_offset).take
         (min (st.pending.length - st.pending_offset) out_len)) := by
  simp only [decompress_gzip_chunk, hl, hdr, hpos, ite_true, ite_false,
    eq_self_iff_true, if_true, if_false]

/-- Drain path with a zero-capacity buffer: return `0`, touch nothing. -/
theorem gz_chunk_drain_zero (E : GzDecoderEngine)
    (reg : List (Nat × GzipDecompressorState)) (handle : Nat)
    (input : List Nat) (out_len : Nat) (finish : Bool)
    (st : GzipDecompressorState) (hl : lookupH reg handle = some st)
    (hdr : st.pending_offset < st.pending.length)
    (hz : min (st.pending.length - st.pending_offset) out_len = 0) :
    decompress_gzip_chunk E reg handle input out_len finish = (reg, 0, []) := by
  simp only [decompress_gzip_chunk, hl, hdr, hz, lt_self_iff_false, ite_true,
    ite_false, eq_self_iff_true, if_true, if_false]

/-- End of stream (no new bytes, `complete`): `done` is set, `0` is
returned, and the handle is removed only on a final call. -/
theorem gz_chunk_eos (E : GzDecoderEngine)
    (reg : List (Nat × GzipDecompressorState)) (handle : Nat)
    (input : List Nat) (out_len : Nat) (finish : Bool)
    (st : GzipDecompressorState) (hl : lookupH reg handle = some st)
    (hdr : ¬ st.pending_offset < st.pending.length)
    (ha : (E.decoded (st.compressed ++ input)).length - st.produced = 0)
    (hc : E.complete (st.compressed ++ input) = true) :
    decompress_gzip_chunk E reg handle input out_len finish =
      (if finish then
         removeH (insertH reg handle
           { st with compressed := st.compressed ++ input, done := true }) handle
       else
         insertH reg handle
           { st with compressed := st.compressed ++ input, done := true },
       0, []) := by
  cases finish <;>
    simp only [decompress_gzip_chunk, hl, hdr, gz_append_state, ha, hc,
      ite_true, ite_false, eq_self_iff_true, if_true, if_false,
      Bool.false_eq_true]

/-- Incomplete stream (`UnexpectedEof`): `-1` with removal on a final
call, otherwise `0` with the session kept. -/
theorem gz_chunk_eof (E : GzDecoderEngine)
    (reg : List (Nat × GzipDecompressorState)) (handle : Nat)
    (input : List Nat) (out_len : Nat) (finish : Bool)
    (st : GzipDecompressorState) (hl : lookupH reg handle = some st)
    (hdr : ¬ st.pending_offset < st.pending.length)
    (ha : (E.decoded (st.compressed ++ input)).length - st.produced = 0)
    (hc : E.complete (st.compressed ++ input) = false)
    (hm : E.malformed (st.compressed ++ input) = false) :
    decompress_gzip_chunk E reg handle input out_len finish =
      (if finish then
         (removeH (insertH reg handle
            { st with compressed := st.compressed ++ input }) handle, -1, [])
       else
         (insertH reg handle
            { st with compressed := st.compressed ++ input }, 0, [])) := by
  cases finish <;>
    simp only [decompress_gzip_chunk, hl, hdr, gz_append_state, ha, hc, hm,
      ite_true, ite_false, eq_self_iff_true, if_true, if_false,
      Bool.false_eq_true]

/-- Hard decoder error: `-1`; the session is removed only on a final
call and kept (with the input appended) otherwise. -/
theorem gz_chunk_malformed (E : GzDecoderEngine)
    (reg : List (Nat × GzipDecompressorState)) (handle : Nat)
    (input : List Nat) (out_len : Nat) (finish : Bool)
    (st : GzipDecompressorState) (hl : lookupH reg handle = some st)
    (hdr : ¬ st.pending_offset < st.pending.length)
    (ha : (E.decoded (st.compressed ++ input)).length - st.produced = 0)
    (hc : E.complete (st.compressed ++ input) = false)
    (hm : E.malformed (st.compressed ++ input) = true) :
    decompress_gzip_chunk E reg handle input out_len finish =
      (if finish then
         removeH (insertH reg handle
           { st with compressed := st.compressed ++ input }) handle
       else
         insertH reg handle { st with compressed := st.compressed ++ input },
       -1, []) := by
  cases finish <;>
    simp only [decompress_gzip_chunk, hl, hdr, gz_append_state, ha, hc, hm,
      ite_true, ite_false, eq_self_iff_true, if_true, if_false,
      Bool.false_eq_true]

/-- New decoded bytes that fit the caller's buffer: returned directly,
the handle is kept — even on a final call. -/
theorem gz_chunk_read_fits (E : GzDecoderEngine)
    (reg : List (Nat × GzipDecompressorState)) (handle : Nat)
    (input : List Nat) (out_len : Nat) (finish : Bool)
    (st : GzipDecompressorState) (hl : lookupH reg handle = some st)
    (hdr : ¬ st.pending_offset < st.pending.length)
    (hpos : (E.decoded (st.compressed ++ input)).length - st.produced ≠ 0)
    (hfit : min (max out_len 8192)
        ((E.decoded (st.compressed ++ input)).length - st.produced) ≤ out_len) :
    decompress_gzip_chunk E reg handle input out_len finish =
      (insertH reg handle
        { st with
            compressed := st.compressed ++ input,
            produced := st.produced +
              min (max out_len 8192)
                ((E.decoded (st.compressed ++ input)).length - st.produced) },
       ((min (max out_len 8192)
          ((E.decoded (st.compressed ++ input)).length - st.produced) : Nat) : Int),
       ((E.decoded (st.compressed ++ input)).drop st.produced).take
         (min (max out_len 8192)
           ((E.decoded (st.compressed ++ input)).length - st.produced))) := by
  simp only [decompress_gzip_chunk, hl, hdr, gz_append_state, hpos,
    not_lt.mpr hfit, ite_true, ite_false, eq_self_iff_true, if_true, if_false]

/-- New decoded bytes exceeding the caller's buffer: a prefix is
returned, the surplus is stashed in `pending` with the cursor at
`out_len`; the handle is kept — even on a final call. -/
theorem gz_chunk_read_surplus (E : GzDecoderEngine)
    (reg : List (Nat × GzipDecompressorState)) (handle : Nat)
    (input : List Nat) (out_len : Nat) (finish : Bool)
    (st : GzipDecompressorState) (hl : lookupH reg handle = some st)
    (hdr : ¬ st.pending_offset < st.pending.length)
    (hpos : (E.decoded (st.compressed ++ input)).length - st.produced ≠ 0)
    (hbig : out_len < min (max out_len 8192)
        ((E.decoded (st.compressed ++ input)).length - st.produced)) :
    decompress_gzip_chunk E reg handle input out_len finish =
      (insertH reg handle
        { st with
            compressed := st.compressed ++ input,
            produced := st.produced +
              min (max out_len 8192)
                ((E.decoded (st.compressed ++ input)).length - st.produced),
            pending := ((E.decoded (st.compressed ++ input)).drop st.produced).take
              (min (max out_len 8192)
                ((E.decoded (st.compressed ++ input)).length - st.produced)),
            pending_offset := out_len },
       (out_len : Int),
       (((E.decoded (st.compressed ++ input)).drop st.produced).take
         (min (max out_len 8192)
           ((E.decoded (st.compressed ++ input)).length - st.produced))).take out_len) := by
  simp only [decompress_gzip_chunk, hl, hdr, gz_append_state, hpos, hbig,
    ite_true, ite_false, eq_self_iff_true, if_true, if_false]

/-- A decoder engine that reports a hard (non-EOF) error on any input:
used for closed runs of the error paths. -/
def sampleGzDecoderBad : GzDecoderEngine :=
  { decoded := fun _ => [], complete := fun _ => false,
    malformed := fun _ => true }

/-! ## Claim C5 — does every `-1` destroy the session? -/

/-- C5 counterexample: a reachable lz4 compressor session that is
finished but still registered (left by an undersized final call, second
conjunct) receives a feed; the codec reports the protocol violation
("cannot compress after finish"), the call returns `-1`, and the
session is *not* removed — the third conjunct's post-registry still
contains it, refuting "every -1 removes the session". -/
theorem c5_counterexample :
    create_compressor 1 [] =
      (2, [(1, { buffer := [], finished := false, level := 4 })], 1) ∧
    compress_chunk sampleLz4Engine
        [(1, { buffer := [], finished := false, level := 4 })] 1 [1] 0 true =
      ([(1, { buffer := [1], finished := true, level := 4 })], -2, []) ∧
    compress_chunk sampleLz4Engine
        [(1, { buffer := [1], finished := true, level := 4 })] 1 [] 0 false =
      ([(1, { buffer := [1], finished := true, level := 4 })], -1, []) := by
  decide

/-- C5 (amended): `-1` destroys the session only on the decompressor
final-call error paths (lz4 frame-decode failure; gzip hard error with
`finish` set).  A compressor feed that fails — in particular the
reachable protocol violation of feeding a finished-but-registered
session — returns `-1` with the session kept, as does a gzip
decompressor hard error on a non-final call. -/
theorem c5_amended
    (E : GzDecoderEngine) (L : Lz4Engine) (B : BrotliEngine)
    (regD : List (Nat × DecompressorState))
    (regZ : List (Nat × GzipDecompressorState))
    (regB : List (Nat × BrotliCompressor))
    (h : Nat) (input : List Nat) (out_len : Nat) (finishB : Bool)
    (sD : DecompressorState) (stZ : GzipDecompressorState)
    (cB : BrotliCompressor)
    (hndD : KeysNodup regD) (hndZ : KeysNodup regZ)
    (hD : lookupH regD h = some sD)
    (hDe : L.frameDecode (sD.buffer ++ input) = none)
    (hZ : lookupH regZ h = some stZ)
    (hZp : ¬ stZ.pending_offset < stZ.pending.length)
    (hZa : (E.decoded (stZ.compressed ++ input)).length - stZ.produced = 0)
    (hZc : E.complete (stZ.compressed ++ input) = false)
    (hZm : E.malformed (stZ.compressed ++ input) = true)
    (hB : lookupH regB h = some cB) (hBf : cB.finished = true) :
    (decompress_chunk L regD h input out_len true).2.1 = -1 ∧
    lookupH (decompress_chunk L regD h input out_len true).1 h = none ∧
    (decompress_gzip_chunk E regZ h input out_len true).2.1 = -1 ∧
    lookupH (decompress_gzip_chunk E regZ h input out_len true).1 h = none ∧
    (decompress_gzip_chunk E regZ h input out_len false).2.1 = -1 ∧
    lookupH (decompress_gzip_chunk E regZ h input out_len false).1 h =
      some { stZ with compressed := stZ.compressed ++ input } ∧
    compress_brotli_chunk B regB h input out_len finishB = (regB, -1, []) := by
  have hD1 : decompress_chunk L regD h input out_len true =
      (removeH (insertH regD h { buffer := sD.buffer ++ input }) h, -1, []) := by
    simp [decompress_chunk, hD, hDe]
  have hZfin := gz_chunk_malformed E regZ h input out_len true stZ hZ hZp hZa hZc hZm
  have hZnon := gz_chunk_malformed E regZ h input out_len false stZ hZ hZp hZa hZc hZm
  simp only [if_true, ite_true, if_false, ite_false, Bool.false_eq_true] at hZfin hZnon
  refine ⟨?_, ?_, ?_, ?_, ?_, ?_, ?_⟩
  · rw [hD1]
  · rw [hD1]
    rw [removeH_insertH]
    exact lookupH_removeH_self regD h hndD
  · rw [hZfin]
  · rw [hZfin]
    rw [removeH_insertH]
    exact lookupH_removeH_self regZ h hndZ
  · rw [hZnon]
  · rw [hZnon]
    rw [lookupH_insertH]
    simp
  · exact chunkDispatch_error regB h _ out_len finishB cB
      "Cannot compress after finish"
      hB (by simp [BrotliCompressor.compress_chunk, hBf])

theorem c5_amended_witness :
    ((decompress_chunk sampleLz4Engine [(1, { buffer := [1] })] 1 [] 4 true).2.1 = -1 ∧
     lookupH (decompress_chunk sampleLz4Engine [(1, { buffer := [1] })] 1 [] 4 true).1 1 = none ∧
     (decompress_gzip_chunk sampleGzDecoderBad [(1, GzipDecompressorState.new)] 1 [] 4 true).2.1 = -1 ∧
     lookupH (decompress_gzip_chunk sampleGzDecoderBad [(1, GzipDecompressorState.new)] 1 [] 4 true).1 1 = none ∧
     (decompress_gzip_chunk sampleGzDecoderBad [(1, GzipDecompressorState.new)] 1 [] 4 false).2.1 = -1 ∧
     lookupH (decompress_gzip_chunk sampleGzDecoderBad [(1, GzipDecompressorState.new)] 1 [] 4 false).1 1 =
       some { GzipDecompressorState.new with
               compressed := GzipDecompressorState.new.compressed ++ [] } ∧
     compress_brotli_chunk sampleBrotliEngine
        [(1, { level := 6, written := [], finished := true })] 1 [] 4 false =
       ([(1, { level := 6, written := [], finished := true })], -1, [])) :=
  c5_amended sampleGzDecoderBad sampleLz4Engine sampleBrotliEngine
    [(1, { buffer := [1] })] [(1, GzipDecompressorState.new)]
    [(1, { level := 6, written := [], finished := true })]
    1 [] 4 false
    { buffer := [1] } GzipDecompressorState.new
    { level := 6, written := [], finished := true }
    (by decide) (by decide) (by decide) (by decide) (by decide) (by decide)
    (by decide) (by decide) (by decide) (by decide) (by decide)

/-! ## Claim C3 — does a successful final feed destroy the handle? -/

/-- C3 counterexample: on the gzip streaming decompressor, a
final-flagged feed that succeeds — it returns 2 bytes, a non-negative
value — does **not** remove the handle (the post-registry of the second
conjunct still holds it), and the subsequent feed on that handle
returns `0`, not `-1` (third conjunct). -/
theorem c3_counterexample :
    create_gzip_decompressor 1 [] = (2, [(1, GzipDecompressorState.new)], 1) ∧
    decompress_gzip_chunk sampleGzDecoder [(1, GzipDecompressorState.new)]
        1 [9] 2 true =
      ([(1, { compressed := [9], produced := 2, pending := [],
              pending_offset := 0, done := false })], 2, [1, 2]) ∧
    decompress_gzip_chunk sampleGzDecoder
        [(1, { compressed := [9], produced := 2, pending := [],
               pending_offset := 0, done := false })] 1 [] 2 true =
      ([], 0, []) := by
  decide

/-- C3 (amended): for the compressor bindings (all three go through the
shared `chunkDispatch`) and for the lz4 streaming decompressor, a final
feed that succeeds with output removes the handle, and every subsequent
feed on that handle returns `-1`; the gzip streaming decompressor,
however, removes the handle on a final feed only when the engine
produces no further bytes, so a final feed that still returns data
leaves the handle registered. -/
theorem c3_amended {σ : Type}
    (reg : List (Nat × σ)) (run run2 : σ → Except String (σ × List Nat))
    (h : Nat) (out_len out_len2 : Nat) (finish2 : Bool)
    (c c2 : σ) (out : List Nat)
    (L : Lz4Engine) (regD : List (Nat × DecompressorState))
    (sD : DecompressorState) (inputD outD : List Nat) (lenD : Nat)
    (E : GzDecoderEngine) (regZ : List (Nat × GzipDecompressorState))
    (stZ : GzipDecompressorState) (inputZ : List Nat) (lenZ : Nat)
    (hnd : KeysNodup reg) (hl : lookupH reg h = some c)
    (hr : run c = .ok (c2, out)) (hne : out ≠ []) (hsize : out.length ≤ out_len)
    (hndD : KeysNodup regD) (hD : lookupH regD h = some sD)
    (hDd : L.frameDecode (sD.buffer ++ inputD) = some outD)
    (hDs : outD.length ≤ lenD)
    (hZ : lookupH regZ h = some stZ)
    (hZp : ¬ stZ.pending_offset < stZ.pending.length)
    (hZa : (E.decoded (stZ.compressed ++ inputZ)).length - stZ.produced ≠ 0)
    (hZf : min (max lenZ 8192)
        ((E.decoded (stZ.compressed ++ inputZ)).length - stZ.produced) ≤ lenZ) :
    (chunkDispatch reg h run out_len true =
       (removeH reg h, (out.length : Int), out) ∧
     chunkDispatch (removeH reg h) h run2 out_len2 finish2 =
       (removeH reg h, -1, [])) ∧
    ((decompress_chunk L regD h inputD lenD true).2.1 = (outD.length : Int) ∧
     lookupH (decompress_chunk L regD h inputD lenD true).1 h = none) ∧
    ((decompress_gzip_chunk E regZ h inputZ lenZ true).2.1 =
       ((min (max lenZ 8192)
          ((E.decoded (stZ.compressed ++ inputZ)).length - stZ.produced) : Nat) : Int) ∧
     lookupH (decompress_gzip_chunk E regZ h inputZ lenZ true).1 h =
       some { stZ with
               compressed := stZ.compressed ++ inputZ,
               produced := stZ.produced +
                 min (max lenZ 8192)
                   ((E.decoded (stZ.compressed ++ inputZ)).length - stZ.produced) }) := by
  have hremove := chunkDispatch_final_success reg h run out_len c c2 out hl hr hne hsize
  have hD1 : decompress_chunk L regD h inputD lenD true =
      (removeH (insertH regD h { buffer := sD.buffer ++ inputD }) h,
       (outD.length : Int), outD) := by
    simp [decompress_chunk, hD, hDd, not_lt.mpr hDs]
  have hZ1 := gz_chunk_read_fits E regZ h inputZ lenZ true stZ hZ hZp hZa hZf
  refine ⟨⟨hremove, ?_⟩, ⟨?_, ?_⟩, ?_, ?_⟩
  · exact chunkDispatch_not_found (removeH reg h) h run2 out_len2 finish2
      (lookupH_removeH_self reg h hnd)
  · rw [hD1]
  · rw [hD1, removeH_insertH]
    exact lookupH_removeH_self regD h hndD
  · rw [hZ1]
  · rw [hZ1, lookupH_insertH]
    simp

theorem c3_amended_witness :
    ((chunkDispatch [(1, { level := 6, written := [], finished := false })] 1
        (fun c => BrotliCompressor.compress_chunk sampleBrotliEngine c [4] Flush.Finish)
        3 true =
       ([], 3, [7, 7, 7]) ∧
      chunkDispatch ([] : List (Nat × BrotliCompressor)) 1
        (fun c => BrotliCompressor.compress_chunk sampleBrotliEngine c [4] Flush.Finish)
        3 true =
       ([], -1, [])) ∧
     ((decompress_chunk sampleLz4Engine [(1, { buffer := [9] })] 1 [9] 2 true).2.1 = 2 ∧
      lookupH (decompress_chunk sampleLz4Engine [(1, { buffer := [9] })] 1 [9] 2 true).1 1 = none) ∧
     ((decompress_gzip_chunk sampleGzDecoder [(1, GzipDecompressorState.new)] 1 [9] 2 true).2.1 = 2 ∧
      lookupH (decompress_gzip_chunk sampleGzDecoder [(1, GzipDecompressorState.new)] 1 [9] 2 true).1 1 =
        some { compressed := [9], produced := 2, pending := [],
               pending_offset := 0, done := false })) :=
  c3_amended
    [(1, { level := 6, written := [], finished := false })]
    (fun c => BrotliCompressor.compress_chunk sampleBrotliEngine c [4] Flush.Finish)
    (fun c => BrotliCompressor.compress_chunk sampleBrotliEngine c [4] Flush.Finish)
    1 3 3 true
    { level := 6, written := [], finished := false }
    { level := 6, written := [4], finished := true }
    [7, 7, 7]
    sampleLz4Engine [(1, { buffer := [9] })] { buffer := [9] } [9] [1, 2] 2
    sampleGzDecoder [(1, GzipDecompressorState.new)] GzipDecompressorState.new [9] 2
    (by decide) (by decide) rfl (by decide) (by decide) (by decide)
    (by decide) (by decide) (by decide) (by decide) (by decide) (by decide)
    (by decide)

/-! ## Claim C7 — the frame-atomic codec's non-final chunks -/

/-- C7 counterexample: the claim quantifies over *any handle state*,
but a reachable lz4 compressor state — finished yet still registered,
left by an undersized final call (second conjunct) — answers a
non-final chunk with `-1`, not `0` (third conjunct). -/
theorem c7_counterexample :
    create_compressor 1 [] =
      (2, [(1, { buffer := [], finished := false, level := 4 })], 1) ∧
    compress_chunk sampleLz4Engine
        [(1, { buffer := [], finished := false, level := 4 })] 1 [3] 0 true =
      ([(1, { buffer := [3], finished := true, level := 4 })], -2, []) ∧
    compress_chunk sampleLz4Engine
        [(1, { buffer := [3], finished := true, level := 4 })] 1 [] 4 false =
      ([(1, { buffer := [3], finished := true, level := 4 })], -1, []) := by
  decide

/-- C7 (amended): on a live, non-finished lz4 compressor session every
non-final chunk returns exactly `0` with no output while the input
accumulates, and on any live lz4 decompressor session every non-final
chunk returns exactly `0` with no output; all produced bytes appear
only on the final call, which emits the complete frame of the
accumulated buffer.  (A compressor session left finished-but-registered
by an undersized final call instead answers `-1`, see the
counterexample.) -/
theorem c7_amended (L : Lz4Engine)
    (regC : List (Nat × Lz4Compressor)) (regD : List (Nat × DecompressorState))
    (h : Nat) (input inputD : List Nat) (out_len lenD lenF : Nat)
    (c : Lz4Compressor) (s : DecompressorState)
    (hC : lookupH regC h = some c) (hCf : c.finished = false)
    (hD : lookupH regD h = some s)
    (hne : L.frame (c.buffer ++ input) ≠ [])
    (hfit : (L.frame (c.buffer ++ input)).length ≤ lenF) :
    compress_chunk L regC h input out_len false =
      (insertH regC h { c with buffer := c.buffer ++ input }, 0, []) ∧
    decompress_chunk L regD h inputD lenD false =
      (insertH regD h { buffer := s.buffer ++ inputD }, 0, []) ∧
    compress_chunk L regC h input lenF true =
      (removeH regC h, ((L.frame (c.buffer ++ input)).length : Int),
       L.frame (c.buffer ++ input)) := by
  refine ⟨?_, ?_, ?_⟩
  · exact chunkDispatch_empty_out regC h _ out_len false c
      ({ c with buffer := c.buffer ++ input })
      hC (by simp [Lz4Compressor.compress_chunk, hCf])
  · simp [decompress_chunk, hD]
  · exact chunkDispatch_final_success regC h _ lenF c
      ({ c with buffer := c.buffer ++ input, finished := true })
      (L.frame (c.buffer ++ input)) hC
      (by simp [Lz4Compressor.compress_chunk, hCf]) hne hfit

theorem c7_amended_witness :
    (compress_chunk sampleLz4Engine
        [(1, { buffer := [], finished := false, level := 4 })] 1 [5] 0 false =
       ([(1, { buffer := [5], finished := false, level := 4 })], 0, []) ∧
     decompress_chunk sampleLz4Engine [(1, { buffer := [] })] 1 [5] 0 false =
       ([(1, { buffer := [5] })], 0, []) ∧
     compress_chunk sampleLz4Engine
        [(1, { buffer := [], finished := false, level := 4 })] 1 [5] 2 true =
       ([], 2, [9, 9])) :=
  c7_amended sampleLz4Engine
    [(1, { buffer := [], finished := false, level := 4 })]
    [(1, { buffer := [] })] 1 [5] [5] 0 0 2
    { buffer := [], finished := false, level := 4 } { buffer := [] }
    (by decide) (by decide) (by decide) (by decide) (by decide)

/-! ## Claim C9 — is the input always appended? -/

/-- C9 counterexample: a feed that arrives while pending output exists
(left by the first feed, whose 4 decoded bytes exceeded the 1-byte
buffer) drains one pending byte and returns — its input `[5]` is
**dropped**: the post-state's compressed source is still `[3]`, not
`[3, 5]`, refuting "every feed call appends its input, including calls
in which pending output is drained first". -/
theorem c9_counterexample :
    create_gzip_decompressor 3 [] = (4, [(3, GzipDecompressorState.new)], 3) ∧
    decompress_gzip_chunk sampleGzDecoder [(3, GzipDecompressorState.new)]
        3 [3] 1 false =
      ([(3, { compressed := [3], produced := 4, pending := [1, 2, 3, 4],
              pending_offset := 1, done := false })], 1, [1]) ∧
    decompress_gzip_chunk sampleGzDecoder
        [(3, { compressed := [3], produced := 4, pending := [1, 2, 3, 4],
               pending_offset := 1, done := false })] 3 [5] 1 false =
      ([(3, { compressed := [3], produced := 4, pending := [1, 2, 3, 4],
              pending_offset := 2, done := false })], 1, [2]) := by
  decide

/-- C9 (amended): a `feedDecompress` call on a live gzip handle appends
its input to the session's compressed source only when it does not hit
the pending-drain early return: if pending output exists the call
drains it and discards the input (the compressed source is unchanged);
otherwise the surviving session's compressed source is exactly the old
source plus the input. -/
theorem c9_amended (E : GzDecoderEngine)
    (reg : List (Nat × GzipDecompressorState)) (h : Nat)
    (input : List Nat) (out_len : Nat) (finish : Bool)
    (st st2 : GzipDecompressorState)
    (hnd : KeysNodup reg) (hl : lookupH reg h = some st)
    (hl2 : lookupH (decompress_gzip_chunk E reg h input out_len finish).1 h =
      some st2) :
    (st.pending_offset < st.pending.length → st2.compressed = st.compressed) ∧
    (¬ st.pending_offset < st.pending.length →
      st2.compressed = st.compressed ++ input) := by
  constructor
  · intro hdr
    by_cases hpos : 0 < min (st.pending.length - st.pending_offset) out_len
    · rw [gz_chunk_drain_pos E reg h input out_len finish st hl hdr hpos,
          lookupH_insertH] at hl2
      simp only [eq_self_iff_true, if_true, ite_true] at hl2
      have hst := Option.some.inj hl2
      split at hst <;> rw [← hst]
    · have hz : min (st.pending.length - st.pending_offset) out_len = 0 :=
        Nat.eq_zero_of_not_pos hpos
      rw [gz_chunk_drain_zero E reg h input out_len finish st hl hdr hz, hl] at hl2
      rw [← Option.some.inj hl2]
  · intro hdr
    by_cases hav : (E.decoded (st.compressed ++ input)).length - st.produced = 0
    · by_cases hcom : E.complete (st.compressed ++ input) = true
      · rw [gz_chunk_eos E reg h input out_len finish st hl hdr hav hcom] at hl2
        cases finish with
        | true =>
            simp only [ite_true, eq_self_iff_true, if_true] at hl2
            rw [removeH_insertH, lookupH_removeH_self reg h hnd] at hl2
            cases hl2
        | false =>
            simp only [Bool.false_eq_true, ite_false, if_false] at hl2
            rw [lookupH_insertH] at hl2
            simp only [eq_self_iff_true, if_true, ite_true] at hl2
            rw [← Option.some.inj hl2]
      · have hcom2 : E.complete (st.compressed ++ input) = false := by
          cases hb : E.complete (st.compressed ++ input)
          · rfl
          · exact absurd hb hcom
        by_cases hmal : E.malformed (st.compressed ++ input) = true
        · rw [gz_chunk_malformed E reg h input out_len finish st hl hdr hav
              hcom2 hmal] at hl2
          cases finish with
          | true =>
              simp only [ite_true, eq_self_iff_true, if_true] at hl2
              rw [removeH_insertH, lookupH_removeH_self reg h hnd] at hl2
              cases hl2
          | false =>
              simp only [Bool.false_eq_true, ite_false, if_false] at hl2
              rw [lookupH_insertH] at hl2
              simp only [eq_self_iff_true, if_true, ite_true] at hl2
              rw [← Option.some.inj hl2]
        · have hmal2 : E.malformed (st.compressed ++ input) = false := by
            cases hb : E.malformed (st.compressed ++ input)
            · rfl
            · exact absurd hb hmal
          rw [gz_chunk_eof E reg h input out_len finish st hl hdr hav
              hcom2 hmal2] at hl2
          cases finish with
          | true =>
              simp only [ite_true, eq_self_iff_true, if_true] at hl2
              rw [removeH_insertH, lookupH_removeH_self reg h hnd] at hl2
              cases hl2
          | false =>
              simp only [Bool.false_eq_true, ite_false, if_false] at hl2
              rw [lookupH_insertH] at hl2
              simp only [eq_self_iff_true, if_true, ite_true] at hl2
              rw [← Option.some.inj hl2]
    · by_cases hbig : out_len < min (max out_len 8192)
          ((E.decoded (st.compressed ++ input)).length - st.produced)
      · rw [gz_chunk_read_surplus E reg h input out_len finish st hl hdr hav hbig,
            lookupH_insertH] at hl2
        simp only [eq_self_iff_true, if_true, ite_true] at hl2
        rw [← Option.some.inj hl2]
      · rw [gz_chunk_read_fits E reg h input out_len finish st hl hdr hav
            (not_lt.mp hbig), lookupH_insertH] at hl2
        simp only [eq_self_iff_true, if_true, ite_true] at hl2
        rw [← Option.some.inj hl2]

theorem c9_amended_witness :
    (({ compressed := [3], produced := 4, pending := [1, 2, 3, 4],
        pending_offset := 1, done := false } :
          GzipDecompressorState).pending_offset <
       ({ compressed := [3], produced := 4, pending := [1, 2, 3, 4],
          pending_offset := 1, done := false } :
            GzipDecompressorState).pending.length →
      ({ compressed := [3], produced := 4, pending := [1, 2, 3, 4],
         pending_offset := 2, done := false } :
           GzipDecompressorState).compressed =
        ({ compressed := [3], produced := 4, pending := [1, 2, 3, 4],
           pending_offset := 1, done := false } :
             GzipDecompressorState).compressed) ∧
    (¬ ({ compressed := [3], produced := 4, pending := [1, 2, 3, 4],
          pending_offset := 1, done := false } :
            GzipDecompressorState).pending_offset <
         ({ compressed := [3], produced := 4, pending := [1, 2, 3, 4],
            pending_offset := 1, done := false } :
              GzipDecompressorState).pending.length →
      ({ compressed := [3], produced := 4, pending := [1, 2, 3, 4],
         pending_offset := 2, done := false } :
           GzipDecompressorState).compressed =
        ({ compressed := [3], produced := 4, pending := [1, 2, 3, 4],
           pending_offset := 1, done := false } :
             GzipDecompressorState).compressed ++ [5]) :=
  c9_amended sampleGzDecoder
    [(3, { compressed := [3], produced := 4, pending := [1, 2, 3, 4],
           pending_offset := 1, done := false })] 3 [5] 1 false
    { compressed := [3], produced := 4, pending := [1, 2, 3, 4],
      pending_offset := 1, done := false }
    { compressed := [3], produced := 4, pending := [1, 2, 3, 4],
      pending_offset := 2, done := false }
    (by decide) (by decide) (by decide)

/-! ## Claim C10 — the pending-output cursor invariant -/

/-- The host-visible operations of the gzip streaming decompressor
module. -/
inductive GzDecompOp where
  | create
  | destroy (h : Nat)
  | feed (h : Nat) (input : List Nat) (out_len : Nat) (finish : Bool)

/-- One host call against the module state (handle counter, registry). -/
def gzDecompStep (E : GzDecoderEngine)
    (s : Nat × List (Nat × GzipDecompressorState)) (op : GzDecompOp) :
    Nat × List (Nat × GzipDecompressorState) :=
  match op with
  | .create =>
      ((create_gzip_decompressor s.1 s.2).1, (create_gzip_decompressor s.1 s.2).2.1)
  | .destroy h => (s.1, destroy_gzip_decompressor s.2 h)
  | .feed h input out_len finish =>
      (s.1, (decompress_gzip_chunk E s.2 h input out_len finish).1)

/-- Module state reached from process start (`HANDLE_COUNTER = 1`,
empty registry) by a sequence of host calls. -/
def gzDecompRun (E : GzDecoderEngine) (ops : List GzDecompOp) :
    Nat × List (Nat × GzipDecompressorState) :=
  ops.foldl (gzDecompStep E) (1, [])

/-- Every registered decompressor session has its pending cursor within
bounds. -/
abbrev GzCursorInv (reg : List (Nat × GzipDecompressorState)) : Prop :=
  ∀ p ∈ reg, p.2.pending_offset ≤ p.2.pending.length

theorem gzDecompStep_preserves (E : GzDecoderEngine)
    (s : Nat × List (Nat × GzipDecompressorState)) (op : GzDecompOp)
    (hinv : GzCursorInv s.2) : GzCursorInv (gzDecompStep E s op).2 := by
  cases op with
  | create =>
      intro p hp
      simp only [gzDecompStep, create_gzip_decompressor] at hp
      rcases mem_insertH _ _ _ p hp with hh | hh
      · rw [hh]
        exact Nat.le_refl 0
      · exact hinv p hh
  | destroy h =>
      intro p hp
      simp only [gzDecompStep, destroy_gzip_decompressor] at hp
      exact hinv p (mem_removeH _ _ p hp)
  | feed h input out_len finish =>
      intro p hp
      simp only [gzDecompStep] at hp
      cases hl : lookupH s.2 h with
      | none =>
          rw [gz_chunk_not_found E s.2 h input out_len finish hl] at hp
          exact hinv p hp
      | some st =>
          have hst : st.pending_offset ≤ st.pending.length :=
            hinv (h, st) (lookupH_mem _ _ _ hl)
          by_cases hdr : st.pending_offset < st.pending.length
          · by_cases hpos : 0 < min (st.pending.length - st.pending_offset) out_len
            · rw [gz_chunk_drain_pos E s.2 h input out_len finish st hl hdr hpos] at hp
              rcases mem_insertH _ _ _ p hp with hh | hh
              · rw [hh]
                by_cases hfull : st.pending.length ≤
                    st.pending_offset + min (st.pending.length - st.pending_offset) out_len
                · rw [if_pos hfull]
                  exact Nat.le_refl 0
                · rw [if_neg hfull]
                  exact le_of_lt (not_le.mp hfull)
              · exact hinv p hh
            · have hz : min (st.pending.length - st.pending_offset) out_len = 0 :=
                Nat.eq_zero_of_not_pos hpos
              rw [gz_chunk_drain_zero E s.2 h input out_len finish st hl hdr hz] at hp
              exact hinv p hp
          · by_cases hav : (E.decoded (st.compressed ++ input)).length - st.produced = 0
            · by_cases hcom : E.complete (st.compressed ++ input) = true
              · rw [gz_chunk_eos E s.2 h input out_len finish st hl hdr hav hcom] at hp
                cases finish with
                | true =>
                    simp only [ite_true, eq_self_iff_true, if_true] at hp
                    rcases mem_insertH _ _ _ p (mem_removeH _ _ p hp) with hh | hh
                    · rw [hh]
                      exact hst
                    · exact hinv p hh
                | false =>
                    simp only [Bool.false_eq_true, ite_false, if_false] at hp
                    rcases mem_insertH _ _ _ p hp with hh | hh
                    · rw [hh]
                      exact hst
                    · exact hinv p hh
              · have hcom2 : E.complete (st.compressed ++ input) = false := by
                  cases hb : E.complete (st.compressed ++ input)
                  · rfl
                  · exact absurd hb hcom
                by_cases hmal : E.malformed (st.compressed ++ input) = true
                · rw [gz_chunk_malformed E s.2 h input out_len finish st hl hdr hav
                      hcom2 hmal] at hp
                  cases finish with
                  | true =>
                      simp only [ite_true, eq_self_iff_true, if_true] at hp
                      rcases mem_insertH _ _ _ p (mem_removeH _ _ p hp) with hh | hh
                      · rw [hh]
                        exact hst
                      · exact hinv p hh
                  | false =>
                      simp only [Bool.false_eq_true, ite_false, if_false] at hp
                      rcases mem_insertH _ _ _ p hp with hh | hh
                      · rw [hh]
                        exact hst
                      · exact hinv p hh
                · have hmal2 : E.malformed (st.compressed ++ input) = false := by
                    cases hb : E.malformed (st.compressed ++ input)
                    · rfl
                    · exact absurd hb hmal
                  rw [gz_chunk_eof E s.2 h input out_len finish st hl hdr hav
                      hcom2 hmal2] at hp
                  cases finish with
                  | true =>
                      simp only [ite_true, eq_self_iff_true, if_true] at hp
                      rcases mem_insertH _ _ _ p (mem_removeH _ _ p hp) with hh | hh
                      · rw [hh]
                        exact hst
                      · exact hinv p hh
                  | false =>
                      simp only [Bool.false_eq_true, ite_false, if_false] at hp
                      rcases mem_insertH _ _ _ p hp with hh | hh
                      · rw [hh]
                        exact hst
                      · exact hinv p hh
            · by_cases hbig : out_len < min (max out_len 8192)
                  ((E.decoded (st.compressed ++ input)).length - st.produced)
              · rw [gz_chunk_read_surplus E s.2 h input out_len finish st hl hdr
                    hav hbig] at hp
                rcases mem_insertH _ _ _ p hp with hh | hh
                · rw [hh]
                  simp only [List.length_take, List.length_drop]
                  rw [min_eq_left (min_le_right _ _)]
                  exact le_of_lt hbig
                · exact hinv p hh
              · rw [gz_chunk_read_fits E s.2 h input out_len finish st hl hdr hav
                    (not_lt.mp hbig)] at hp
                rcases mem_insertH _ _ _ p hp with hh | hh
                · rw [hh]
                  exact hst
                · exact hinv p hh

/-- C10: for every engine and every sequence of create/feed/destroy
calls from process start, every session still registered satisfies
`0 ≤ pending_offset ≤ pending.length` — the cursor stays within the
pending buffer before and after every `feedDecompress` call. -/
theorem c10_pending_cursor_invariant (E : GzDecoderEngine)
    (ops : List GzDecompOp) (h : Nat) (st : GzipDecompressorState)
    (hl : lookupH (gzDecompRun E ops).2 h = some st) :
    0 ≤ st.pending_offset ∧ st.pending_offset ≤ st.pending.length := by
  have hgen : ∀ (l : List GzDecompOp) (s0 : Nat × List (Nat × GzipDecompressorState)),
      GzCursorInv s0.2 → GzCursorInv ((l.foldl (gzDecompStep E) s0)).2 := by
    intro l
    induction l with
    | nil => intro s0 hs; exact hs
    | cons op rest ih =>
        intro s0 hs
        exact ih _ (gzDecompStep_preserves E s0 op hs)
  have hrun : GzCursorInv (gzDecompRun E ops).2 :=
    hgen ops (1, []) (by intro p hp; cases hp)
  exact ⟨Nat.zero_le _, hrun (h, st) (lookupH_mem _ _ _ hl)⟩

theorem c10_pending_cursor_invariant_witness :
    0 ≤ ({ compressed := [3], produced := 4, pending := [1, 2, 3, 4],
           pending_offset := 1, done := false } :
             GzipDecompressorState).pending_offset ∧
    ({ compressed := [3], produced := 4, pending := [1, 2, 3, 4],
       pending_offset := 1, done := false } :
         GzipDecompressorState).pending_offset ≤
      ({ compressed := [3], produced := 4, pending := [1, 2, 3, 4],
         pending_offset := 1, done := false } :
           GzipDecompressorState).pending.length :=
  c10_pending_cursor_invariant sampleGzDecoder
    [GzDecompOp.create, GzDecompOp.feed 1 [3] 1 false] 1
    { compressed := [3], produced := 4, pending := [1, 2, 3, 4],
      pending_offset := 1, done := false }
    (by decide)

/-! ## One-shot vs. single-final-chunk streaming

For gzip and lz4 the single-final-chunk streaming path performs
literally the same engine operations as the one-shot path, so the two
outputs agree for *every* engine.  For brotli the streaming path takes
the sink after `flush()` while the one-shot path calls `into_inner()`
(which, per the code's own comment, finalizes the stream): the two
paths reduce to the two distinct engine observables `flushSink` and
`intoInner`, and whether those coincide is a property of the external
`brotli` crate, not of this repository's sources. -/

theorem gzip_single_final_eq_oneshot (G : GzipEngine)
    (input : List Nat) (options : CompressionOptions) :
    (GzipCompressor.new options).compress_chunk G input Flush.Finish =
      .ok ({ GzipCompressor.new options with written := input, finished := true },
           gzip_compress_all G input options) := by
  simp [GzipCompressor.new, GzipCompressor.compress_chunk, gzip_compress_all]

theorem lz4_single_final_eq_oneshot (L : Lz4Engine)
    (input : List Nat) (options : CompressionOptions) :
    (Lz4Compressor.new options).compress_chunk L input Flush.Finish =
      .ok ({ buffer := input, finished := true, level := options.level.getD 4 },
           lz4_compress_all L input options) := by
  simp [Lz4Compressor.new, Lz4Compressor.compress_chunk, lz4_compress_all]

theorem brotli_single_final_vs_oneshot (E : BrotliEngine)
    (input : List Nat) (options : CompressionOptions) :
    (BrotliCompressor.new options).compress_chunk E input Flush.Finish =
      .ok ({ level := options.level.getD 6, written := input, finished := true },
           E.flushSink (options.level.getD 6) input) ∧
    brotli_compress_all E input options =
      E.intoInner (options.level.getD 6) input := by
  constructor
  · simp [BrotliCompressor.new, BrotliCompressor.compress_chunk]
  · rfl

end WasmFastCompress
